import Mathlib

/-!
Shallow embedding of the `dna` deployment manager (itsvs/dna) and proofs
about its certificate selection, registry, proxy-config generation and
credential logic.

Embedded modules:
* `dna/utils/certbot_utils.py` — `Certbot.cert_else_false`
* `dna/utils/db_utils.py` — the SQLite registry (`Service`, `Domain`,
  `ApiKey`, `SQLite` operations)
* `dna/utils/nginx_utils.py` — `Block` rendering and `Nginx.gen_config`
* `dna/dna.py` — `DNA._do_nginx_deploy`, `DNA._do_db_deploy`,
  `DNA.add_domain`
-/

namespace Dna

/-! ### certbot_utils.py -/

/-- A renewable certificate, modelled by the list of names it covers
(`RenewableCert.names()` in the source). -/
structure Cert where
  names : List String
deriving Repr, DecidableEq

/-- Python `str.split(sep)` for a one-character separator, over the
character list: splitting `""` yields `[""]`, and each separator
occurrence starts a new group. -/
def pySplitChar (sep : Char) : List Char → List (List Char)
  | [] => [[]]
  | a :: as =>
    let r := pySplitChar sep as
    if a = sep then [] :: r
    else
      match r with
      | [] => [[a]]
      | g :: gs => (a :: g) :: gs

/-- `domain.split(".")` as used throughout the source. -/
def splitDot (s : String) : List String :=
  (pySplitChar '.' s.data).map String.mk

/-- Python `".".join(parts)`. -/
def joinDot : List String → String
  | [] => ""
  | [s] => s
  | s :: rest => s ++ "." ++ joinDot rest

/-- `".".join(["*"] + domain.split(".")[1:])`: the one-level wildcard
candidate built in `Certbot.cert_else_false`. -/
def wildcardOf (domain : String) : String :=
  joinDot ("*" :: (splitDot domain).drop 1)

/-- The scan loop of `Certbot.cert_else_false`: `first` is `domains[0]`,
`last` is `domains[-1]`, `found` is the `found_wildcard` accumulator
(`False` initially, a certificate once a wildcard match is seen).
An exact (`domains[0]`) match returns immediately; a `domains[-1]` match
is recorded and the scan continues; at the end the recorded match (or
none) is returned. -/
def certScan (first last : String) : List Cert → Option Cert → Option Cert
  | [], found => found
  | c :: cs, found =>
    if first ∈ c.names then some c
    else if last ∈ c.names then certScan first last cs (some c)
    else certScan first last cs found

/-- `Certbot.cert_else_false(domain, force_wildcard)` over an explicit
enumeration `certs` of the machine's certificates (`_cert_iter`).
`domains = [domain, wildcard]`; if `force_wildcard`, `domains = domains[1:]`
so both `domains[0]` and `domains[-1]` are the wildcard. `none` models the
Python return value `False`. -/
def cert_else_false (certs : List Cert) (domain : String)
    (force_wildcard : Bool) : Option Cert :=
  let w := wildcardOf domain
  if force_wildcard then certScan w w certs none
  else certScan domain w certs none

/-- If some certificate in `l` contains `first`, the scan returns the first
such certificate, whatever the accumulator holds. -/
theorem certScan_exact (first last : String) :
    ∀ (l : List Cert) (acc : Option Cert),
      (∃ c ∈ l, first ∈ c.names) →
      certScan first last l acc = l.find? (fun c => first ∈ c.names) := by
  intro l
  induction l with
  | nil => intro acc h; rcases h with ⟨c, hc, _⟩; cases hc
  | cons c cs ih =>
    intro acc h
    by_cases hx : first ∈ c.names
    · simp [certScan, List.find?, hx]
    · rcases h with ⟨d, hd, hdx⟩
      rcases List.mem_cons.mp hd with rfl | hd'
      · exact absurd hdx hx
      · have hrec : ∃ e ∈ cs, first ∈ e.names := ⟨d, hd', hdx⟩
        by_cases hw : last ∈ c.names
        · simp [certScan, List.find?, hx, hw, ih _ hrec]
        · simp [certScan, List.find?, hx, hw, ih _ hrec]

/-- Every certificate the scan returns was in the scanned list or was the
accumulator, and its names contain `first` or `last`. -/
theorem certScan_sound (first last : String) :
    ∀ (l : List Cert) (acc : Option Cert) (c : Cert),
      certScan first last l acc = some c →
      (c ∈ l ∧ (first ∈ c.names ∨ last ∈ c.names)) ∨ acc = some c := by
  intro l
  induction l with
  | nil => intro acc c h; right; exact h
  | cons d ds ih =>
    intro acc c h
    by_cases hx : first ∈ d.names
    · simp [certScan, hx] at h
      subst h; exact Or.inl ⟨List.mem_cons_self _ _, Or.inl hx⟩
    · by_cases hw : last ∈ d.names
      · simp [certScan, hx, hw] at h
        rcases ih _ _ h with ⟨hin, hns⟩ | hacc
        · exact Or.inl ⟨List.mem_cons_of_mem _ hin, hns⟩
        · have : d = c := by simpa using hacc
          subst this
          exact Or.inl ⟨List.mem_cons_self _ _, Or.inr hw⟩
      · simp [certScan, hx, hw] at h
        rcases ih _ _ h with ⟨hin, hns⟩ | hacc
        · exact Or.inl ⟨List.mem_cons_of_mem _ hin, hns⟩
        · exact Or.inr hacc

/-- C1: with `force_wildcard = False`, whenever some enumerated certificate
covers the exact domain, `cert_else_false` returns the first certificate
whose name set contains the exact domain — never a wildcard-only match;
and any returned certificate whose names do not contain the exact domain
can only arise when no enumerated certificate contains it. -/
theorem cert_else_false_exact_beats_wildcard
    (certs : List Cert) (domain : String)
    (h : ∃ c ∈ certs, domain ∈ c.names) :
    cert_else_false certs domain false
      = certs.find? (fun c => domain ∈ c.names) ∧
    ∀ c, cert_else_false certs domain false = some c → domain ∈ c.names := by
  constructor
  · unfold cert_else_false
    simpa using certScan_exact domain (wildcardOf domain) certs none h
  · intro c hc
    have heq : cert_else_false certs domain false
        = certs.find? (fun c => domain ∈ c.names) := by
      unfold cert_else_false
      simpa using certScan_exact domain (wildcardOf domain) certs none h
    rw [heq] at hc
    have := List.find?_some hc
    simpa using this

/-- Witness for C1: certificates `{[*.example.com]}` then
`{[a.example.com]}`; the exact certificate is returned although the
wildcard is enumerated first. -/
theorem cert_else_false_exact_beats_wildcard_witness :
    cert_else_false [⟨["*.example.com"]⟩, ⟨["a.example.com"]⟩]
        "a.example.com" false = some ⟨["a.example.com"]⟩ := by
  have h := cert_else_false_exact_beats_wildcard
    [⟨["*.example.com"]⟩, ⟨["a.example.com"]⟩] "a.example.com"
    ⟨⟨["a.example.com"]⟩, by decide, by decide⟩
  rw [h.1]; decide

/-- If no certificate in `l` contains `first` or `last`, the scan returns
the accumulator. -/
theorem certScan_none (first last : String) :
    ∀ (l : List Cert) (acc : Option Cert),
      (∀ c ∈ l, first ∉ c.names ∧ last ∉ c.names) →
      certScan first last l acc = acc := by
  intro l
  induction l with
  | nil => intro acc _; rfl
  | cons c cs ih =>
    intro acc h
    have hc := h c (List.mem_cons_self _ _)
    have hcs : ∀ d ∈ cs, first ∉ d.names ∧ last ∉ d.names :=
      fun d hd => h d (List.mem_cons_of_mem _ hd)
    simp [certScan, hc.1, hc.2, ih _ hcs]

/-- C2: for a domain with at least two labels whose one-level wildcard is
covered by the only known certificate, `cert_else_false` returns that
certificate both without and with `force_wildcard`; with `force_wildcard`
any returned certificate covers the wildcard candidate (the exact name is
never matched on); and when no certificate covers either candidate the
result is the `False` value. -/
theorem cert_else_false_wildcard_fallback
    (d : String) (c : Cert)
    (hlab : 2 ≤ (splitDot d).length)
    (hw : wildcardOf d ∈ c.names) :
    cert_else_false [c] d false = some c ∧
    cert_else_false [c] d true = some c ∧
    (∀ certs c', cert_else_false certs d true = some c' →
      c' ∈ certs ∧ wildcardOf d ∈ c'.names) ∧
    (∀ certs, (∀ c' ∈ certs, d ∉ c'.names ∧ wildcardOf d ∉ c'.names) →
      cert_else_false certs d false = none ∧
      cert_else_false certs d true = none) := by
  refine ⟨?_, ?_, ?_, ?_⟩
  · by_cases hx : d ∈ c.names
    · simp [cert_else_false, certScan, hx]
    · simp [cert_else_false, certScan, hx, hw]
  · simp [cert_else_false, certScan, hw]
  · intro certs c' hc'
    unfold cert_else_false at hc'
    simp only [if_pos] at hc'
    rcases certScan_sound (wildcardOf d) (wildcardOf d) certs none c' hc' with
      ⟨hin, hns⟩ | hacc
    · exact ⟨hin, by rcases hns with h | h <;> exact h⟩
    · cases hacc
  · intro certs hnone
    constructor
    · unfold cert_else_false
      simpa using certScan_none d (wildcardOf d) certs none hnone
    · unfold cert_else_false
      refine Eq.trans ?_ (certScan_none (wildcardOf d) (wildcardOf d) certs none ?_)
      · simp
      · exact fun c' hc' => ⟨(hnone c' hc').2, (hnone c' hc').2⟩

/-- Witness for C2: the only certificate covers `*.example.com`;
`cert_else_false "b.example.com"` returns it with and without
`force_wildcard`. -/
theorem cert_else_false_wildcard_fallback_witness :
    cert_else_false [⟨["*.example.com"]⟩] "b.example.com" false
        = some ⟨["*.example.com"]⟩ ∧
    cert_else_false [⟨["*.example.com"]⟩] "b.example.com" true
        = some ⟨["*.example.com"]⟩ := by
  have h := cert_else_false_wildcard_fallback "b.example.com"
    ⟨["*.example.com"]⟩ (by decide) (by decide)
  exact ⟨h.1, h.2.1⟩

/-! ### db_utils.py — data model -/

/-- `Service` row: `name` (primary key), `image`, `port`. The `domains`
relationship is represented by the `service_name` foreign key stored on
each `Domain` row. -/
structure Service where
  name : String
  image : String
  port : String
deriving Repr, DecidableEq

/-- `Domain` row: `url` (primary key) and the `service_name` foreign key
(`none` when the domain is unclaimed). -/
structure Domain where
  url : String
  service_name : Option String
deriving Repr, DecidableEq

/-- `ApiKey` row: `key`, `ip`, `issued_at`, `expires_in` (the `id`
primary key plays no role in the modelled operations). -/
structure ApiKey where
  id : Nat
  key : String
  ip : String
  issued_at : Nat
  expires_in : Nat
deriving Repr, DecidableEq

/-- `ApiKey.is_expired`: `self.issued_at + self.expires_in <= time.time() + 10`,
with the current time passed explicitly. -/
def ApiKey.is_expired (k : ApiKey) (now : Nat) : Bool :=
  k.issued_at + k.expires_in ≤ now + 10

/-- The state of one `SQLite` database session: the three tables. -/
structure SQLiteState where
  services : List Service
  domains : List Domain
  keys : List ApiKey
deriving Repr, DecidableEq

/-! ### db_utils.py — SQLite operations -/

/-- `SQLite.get_service_by_name`: `one_or_none` over the primary key
`name` — the first (unique) row with that name. -/
def get_service_by_name (st : SQLiteState) (name : String) : Option Service :=
  st.services.find? (fun s => s.name == name)

/-- `SQLite.get_domain_by_url` with `create=True`: returns the existing
row unchanged, or inserts and returns a fresh unclaimed row. The returned
state reflects the committed insert. -/
def get_domain_by_url_create (st : SQLiteState) (url : String) :
    Domain × SQLiteState :=
  match st.domains.find? (fun d => d.url == url) with
  | some d => (d, st)
  | none =>
    let d : Domain := ⟨url, none⟩
    (d, { st with domains := st.domains ++ [d] })

/-- `service.domains.append(domain)` followed by `commit`: set the
`service_name` foreign key of the row for `url`. -/
def bindDomain (st : SQLiteState) (url sname : String) : SQLiteState :=
  { st with
    domains := st.domains.map
      (fun d => if d.url == url then { d with service_name := some sname } else d) }

/-- `SQLite.create_service`: insert a new `Service` row and commit. -/
def create_service (st : SQLiteState) (name image port : String) :
    SQLiteState :=
  { st with services := st.services ++ [⟨name, image, port⟩] }

/-- `SQLite.add_domain_to_service(domain, service)` with string arguments,
as `DNA.add_domain` calls it. The service name is resolved with
`get_service_by_name`, the domain row fetched or created. If the domain
already has an owner, the result is `domain.service == service` — object
identity in one session reduces to name equality, and comparing with a
missing (`None`) service is `False`. If the domain is unowned and the
service row is missing, `service.domains.append(...)` dereferences `None`:
an `AttributeError`, modelled as `none`. Otherwise the bind is committed
and `True` returned. -/
def add_domain_to_service (st : SQLiteState) (durl sname : String) :
    Option (Bool × SQLiteState) :=
  let service := get_service_by_name st sname
  let dst := get_domain_by_url_create st durl
  match dst.1.service_name with
  | some owner =>
    some
      (match service with
        | some sv => owner == sv.name
        | none => false,
       dst.2)
  | none =>
    match service with
    | none => none
    | some sv => some (true, bindDomain dst.2 durl sv.name)

/-- The owner recorded for `url` (the `service_name` of its row, if any). -/
def ownerOf (st : SQLiteState) (url : String) : Option String :=
  (st.domains.find? (fun d => d.url == url)).bind (fun d => d.service_name)

/-- `SQLite.check_api_key`: `one_or_none` on `key`, then
`get.ip == ip and not get.is_expired()`. -/
def check_api_key (st : SQLiteState) (key ip : String) (now : Nat) : Bool :=
  match st.keys.find? (fun k => k.key == key) with
  | none => false
  | some get => get.ip == ip && !get.is_expired now

/-- `DNA._do_db_deploy`: create the `Service` row only when no row with
that name exists; an existing registration is left untouched. This is also
the whole registry effect of `DNA.run_deploy` (which otherwise touches
docker and socat only). -/
def _do_db_deploy (st : SQLiteState) (service image port : String) :
    SQLiteState :=
  match get_service_by_name st service with
  | some _ => st
  | none => create_service st service image port

/-! ### db_utils.py — lemmas -/

/-- A service row found by name carries exactly that name. -/
theorem get_service_by_name_name {st : SQLiteState} {s : String}
    {sv : Service} (h : get_service_by_name st s = some sv) :
    sv.name = s := by
  have := List.find?_some h
  simpa using this

/-- `get_domain_by_url_create` on an existing row returns it and leaves
the state unchanged. -/
theorem gdbu_found {st : SQLiteState} {url : String} {dom : Domain}
    (h : st.domains.find? (fun d => d.url == url) = some dom) :
    get_domain_by_url_create st url = (dom, st) := by
  unfold get_domain_by_url_create
  rw [h]

/-- `get_domain_by_url_create` on a missing row appends a fresh unclaimed
row. -/
theorem gdbu_missing {st : SQLiteState} {url : String}
    (h : st.domains.find? (fun d => d.url == url) = none) :
    get_domain_by_url_create st url
      = (⟨url, none⟩, { st with domains := st.domains ++ [⟨url, none⟩] }) := by
  unfold get_domain_by_url_create
  rw [h]

/-- After `bindDomain`, the first row matching `url` (when one exists)
reads `⟨url, some sname⟩`. -/
theorem find_bind_list (url sname : String) :
    ∀ l : List Domain, (∃ d ∈ l, d.url = url) →
      (l.map (fun d =>
          if d.url == url then { d with service_name := some sname } else d)).find?
        (fun d => d.url == url) = some ⟨url, some sname⟩ := by
  intro l
  induction l with
  | nil => intro h; rcases h with ⟨d, hd, _⟩; cases hd
  | cons d ds ih =>
    intro h
    by_cases hd : d.url = url
    · have hfd : (if d.url == url then { d with service_name := some sname }
          else d) = ⟨url, some sname⟩ := by
        simp [hd]
      rw [List.map_cons, hfd, List.find?_cons_of_pos _ (by simp)]
    · have : ∃ e ∈ ds, e.url = url := by
        rcases h with ⟨e, he, heu⟩
        rcases List.mem_cons.mp he with rfl | he'
        · exact absurd heu hd
        · exact ⟨e, he', heu⟩
      have hfd : (if d.url == url then { d with service_name := some sname }
          else d) = d := by
        simp [hd]
      rw [List.map_cons, hfd, List.find?_cons_of_neg _ (by simp [hd]), ih this]

/-- `ownerOf` after `bindDomain` on a url whose row exists. -/
theorem ownerOf_bindDomain {st : SQLiteState} {url : String}
    (sname : String) (h : ∃ d ∈ st.domains, d.url = url) :
    ownerOf (bindDomain st url sname) url = some sname := by
  unfold ownerOf bindDomain
  simp only [find_bind_list url sname st.domains h, Option.bind]

/-- Case split of `add_domain_to_service` on an already-owned domain:
the result reports `owner == requested service` (false when the requested
service does not exist) and the state is returned unchanged. -/
theorem add_owned {st : SQLiteState} {durl : String} {o : String}
    (sname : String) (h : ownerOf st durl = some o) :
    add_domain_to_service st durl sname
      = some ((o == sname && (get_service_by_name st sname).isSome), st) := by
  unfold ownerOf at h
  cases hf : st.domains.find? (fun d => d.url == durl) with
  | none => rw [hf] at h; simp at h
  | some dom =>
    rw [hf] at h
    simp only [Option.some_bind] at h
    unfold add_domain_to_service
    rw [gdbu_found hf]
    simp only [h]
    cases hs : get_service_by_name st sname with
    | none => simp
    | some sv =>
      have hn : sv.name = sname := get_service_by_name_name hs
      simp [hn]

/-- Case split of `add_domain_to_service` on an unowned domain when the
requested service exists: the bind is committed, the domain's owner
becomes the service, and the service table (and key table) are untouched. -/
theorem add_unowned_found {st : SQLiteState} {durl sname : String}
    {sv : Service} (ho : ownerOf st durl = none)
    (hs : get_service_by_name st sname = some sv) :
    ∃ st', add_domain_to_service st durl sname = some (true, st') ∧
      ownerOf st' durl = some sname ∧
      st'.services = st.services ∧ st'.keys = st.keys := by
  have hn : sv.name = sname := get_service_by_name_name hs
  unfold ownerOf at ho
  cases hf : st.domains.find? (fun d => d.url == durl) with
  | some dom =>
    rw [hf] at ho
    simp only [Option.some_bind] at ho
    refine ⟨bindDomain st durl sname, ?_, ?_, rfl, rfl⟩
    · unfold add_domain_to_service
      rw [gdbu_found hf]
      simp only [ho, hs, hn]
    · refine ownerOf_bindDomain sname ?_
      refine ⟨dom, List.mem_of_find?_eq_some hf, ?_⟩
      simpa using List.find?_some hf
  | none =>
    refine ⟨bindDomain { st with domains := st.domains ++ [⟨durl, none⟩] }
      durl sname, ?_, ?_, rfl, rfl⟩
    · unfold add_domain_to_service
      rw [gdbu_missing hf]
      simp only [hs, hn]
    · refine ownerOf_bindDomain sname ?_
      exact ⟨⟨durl, none⟩, by simp, rfl⟩

/-- Case split of `add_domain_to_service` on an unowned domain when the
requested service is missing: the `None` service is dereferenced — an
`AttributeError`, i.e. no boolean result. -/
theorem add_unowned_missing {st : SQLiteState} {durl sname : String}
    (ho : ownerOf st durl = none)
    (hs : get_service_by_name st sname = none) :
    add_domain_to_service st durl sname = none := by
  unfold ownerOf at ho
  cases hf : st.domains.find? (fun d => d.url == durl) with
  | some dom =>
    rw [hf] at ho
    simp only [Option.some_bind] at ho
    unfold add_domain_to_service
    rw [gdbu_found hf]
    simp only [ho, hs]
  | none =>
    unfold add_domain_to_service
    rw [gdbu_missing hf]
    simp only [hs]

/-- A successful (`True`) bind leaves the domain owned by the requested
service. -/
theorem add_success_owner {st st' : SQLiteState} {durl sname : String}
    (h : add_domain_to_service st durl sname = some (true, st')) :
    ownerOf st' durl = some sname := by
  cases ho : ownerOf st durl with
  | some o =>
    rw [add_owned sname ho] at h
    simp only [Option.some.injEq, Prod.mk.injEq] at h
    obtain ⟨hb, hst⟩ := h
    have hon : o = sname := by
      have := (Bool.and_eq_true _ _).mp hb
      simpa using this.1
    subst hst
    rw [← hon]
    exact ho
  | none =>
    cases hs : get_service_by_name st sname with
    | none => rw [add_unowned_missing ho hs] at h; cases h
    | some sv =>
      obtain ⟨st'', heq, hown, _, _⟩ := add_unowned_found ho hs
      rw [heq] at h
      have : st'' = st' := by
        simpa using h
      subst this
      exact hown

/-! ### Claims about the registry -/

/-- C3: once a domain is successfully claimed for `s1`, a claim for a
different `s2` reports failure and changes no registry state, the owner
staying `s1`; and in general any claim of an already-owned domain for a
service other than its owner returns `False` with the state unchanged. -/
theorem claim_already_claimed_noop :
    (∀ (st st1 : SQLiteState) (d s1 s2 : String),
      add_domain_to_service st d s1 = some (true, st1) → s1 ≠ s2 →
      add_domain_to_service st1 d s2 = some (false, st1) ∧
        ownerOf st1 d = some s1) ∧
    (∀ (st : SQLiteState) (d s o : String), ownerOf st d = some o → o ≠ s →
      add_domain_to_service st d s = some (false, st)) := by
  have gen : ∀ (st : SQLiteState) (d s o : String),
      ownerOf st d = some o → o ≠ s →
      add_domain_to_service st d s = some (false, st) := by
    intro st d s o ho hne
    rw [add_owned s ho]
    have hb : (o == s) = false := by simp [hne]
    simp [hb]
  refine ⟨?_, gen⟩
  intro st st1 d s1 s2 h hne
  have how := add_success_owner h
  exact ⟨gen st1 d s2 s1 how hne, how⟩

/-- Witness for C3: two registered services; after `d.com` is claimed for
`s1`, the claim for `s2` fails and the state is untouched. -/
theorem claim_already_claimed_noop_witness :
    add_domain_to_service
        ⟨[⟨"s1", "i", "80"⟩, ⟨"s2", "i", "80"⟩],
         [⟨"d.com", some "s1"⟩], []⟩ "d.com" "s2"
      = some (false,
        ⟨[⟨"s1", "i", "80"⟩, ⟨"s2", "i", "80"⟩],
         [⟨"d.com", some "s1"⟩], []⟩) ∧
    ownerOf
        ⟨[⟨"s1", "i", "80"⟩, ⟨"s2", "i", "80"⟩],
         [⟨"d.com", some "s1"⟩], []⟩ "d.com" = some "s1" :=
  claim_already_claimed_noop.1
    ⟨[⟨"s1", "i", "80"⟩, ⟨"s2", "i", "80"⟩], [], []⟩
    ⟨[⟨"s1", "i", "80"⟩, ⟨"s2", "i", "80"⟩], [⟨"d.com", some "s1"⟩], []⟩
    "d.com" "s1" "s2" (by decide) (by decide)

/-- C4 counterexample: with `d.com` already owned by `s1`, the claim says
`add_domain_to_service` returns `False`; the code returns
`domain.service == service`, i.e. `True` for the owner itself. -/
theorem add_domain_same_owner_counterexample :
    (add_domain_to_service
        ⟨[⟨"s1", "i", "80"⟩], [⟨"d.com", some "s1"⟩], []⟩
        "d.com" "s1").map Prod.fst = some true := by
  decide

/-- C4 (amended): `add_domain_to_service` returns whether the domain is
bound to the requested service — it creates the row if absent and binds
only when unowned; when the domain is already owned it reports whether the
owner is the requested (and existing) service, so `False` exactly for a
different owner or a missing service, and `True` (not `False`) when
already owned by this same service; the state is unchanged on the
already-owned path. -/
theorem add_domain_to_service_reports_bind :
    (∀ (st : SQLiteState) (url s o : String), ownerOf st url = some o →
      add_domain_to_service st url s
        = some ((o == s && (get_service_by_name st s).isSome), st)) ∧
    (∀ (st : SQLiteState) (url s : String) (sv : Service),
      ownerOf st url = none → get_service_by_name st s = some sv →
      ∃ st', add_domain_to_service st url s = some (true, st') ∧
        ownerOf st' url = some s) := by
  refine ⟨fun st url s o ho => add_owned s ho,
    fun st url s sv ho hs => ?_⟩
  obtain ⟨st', h1, h2, _, _⟩ := add_unowned_found ho hs
  exact ⟨st', h1, h2⟩

/-- Witness for the amended C4: a domain owned by `sX` claimed for the
registered `s1` reports `False` with the state untouched. -/
theorem add_domain_to_service_reports_bind_witness :
    add_domain_to_service
        ⟨[⟨"s1", "i", "80"⟩], [⟨"d.com", some "sX"⟩], []⟩ "d.com" "s1"
      = some (false, ⟨[⟨"s1", "i", "80"⟩], [⟨"d.com", some "sX"⟩], []⟩) := by
  have h := add_domain_to_service_reports_bind.1
    ⟨[⟨"s1", "i", "80"⟩], [⟨"d.com", some "sX"⟩], []⟩ "d.com" "s1" "sX"
    (by decide)
  rw [h]
  decide

/-- C10: claiming an unowned (or absent) domain for an unregistered
service name yields no boolean result at all — the missing service is
dereferenced (`AttributeError`), modelled by `none`. -/
theorem claim_missing_service_error :
    ∀ (st : SQLiteState) (url s : String),
      ownerOf st url = none → get_service_by_name st s = none →
      add_domain_to_service st url s = none :=
  fun _ _ _ ho hs => add_unowned_missing ho hs

/-- Witness for C10: empty registry, unknown service. -/
theorem claim_missing_service_error_witness :
    add_domain_to_service ⟨[], [], []⟩ "d.com" "ghost" = none :=
  claim_missing_service_error ⟨[], [], []⟩ "d.com" "ghost"
    (by decide) (by decide)

/-- C6: when a service is already registered, `_do_db_deploy` (the whole
registry effect of `run_deploy`) leaves the registry unchanged: no
duplicate row, and the stored image and port remain the originals. -/
theorem db_deploy_no_overwrite :
    ∀ (st : SQLiteState) (n i1 p1 i2 p2 : String),
      get_service_by_name st n = some ⟨n, i1, p1⟩ →
      _do_db_deploy st n i2 p2 = st ∧
      get_service_by_name (_do_db_deploy st n i2 p2) n = some ⟨n, i1, p1⟩ ∧
      ((_do_db_deploy st n i2 p2).services.filter
          (fun s => s.name == n)).length
        = (st.services.filter (fun s => s.name == n)).length := by
  intro st n i1 p1 i2 p2 h
  have he : _do_db_deploy st n i2 p2 = st := by
    unfold _do_db_deploy
    rw [h]
  exact ⟨he, by rw [he]; exact h, by rw [he]⟩

/-- Witness for C6: re-deploying `web` with a new image and port keeps
the original registration. -/
theorem db_deploy_no_overwrite_witness :
    _do_db_deploy ⟨[⟨"web", "img1", "8000"⟩], [], []⟩ "web" "img2" "9000"
        = ⟨[⟨"web", "img1", "8000"⟩], [], []⟩ ∧
    get_service_by_name
        (_do_db_deploy ⟨[⟨"web", "img1", "8000"⟩], [], []⟩ "web" "img2" "9000")
        "web" = some ⟨"web", "img1", "8000"⟩ := by
  have h := db_deploy_no_overwrite ⟨[⟨"web", "img1", "8000"⟩], [], []⟩
    "web" "img1" "8000" "img2" "9000" (by decide)
  exact ⟨h.1, h.2.1⟩

/-- C9 counterexample: the key issued at 0 with a 3600-second... rather,
a key with `issued_at = 0`, `expires_in = 5` at `now = 0` satisfies
`issued_at + expires_in > now`, yet the code reports it expired (the
expiry test compares against `now + 10`) and rejects it. -/
theorem is_expired_counterexample :
    ApiKey.is_expired ⟨1, "k", "ip", 0, 5⟩ 0 = true ∧
    ¬ ((⟨1, "k", "ip", 0, 5⟩ : ApiKey).issued_at
        + (⟨1, "k", "ip", 0, 5⟩ : ApiKey).expires_in ≤ 0) ∧
    check_api_key ⟨[], [], [⟨1, "k", "ip", 0, 5⟩]⟩ "k" "ip" 0 = false := by
  decide

/-- C9 (amended): a credential is expired exactly when
`issued_at + expires_in <= now + 10` (a 10-second early-expiry margin),
and `check_api_key` accepts exactly when the key row is found, the client
address matches, and `issued_at + expires_in > now + 10`. -/
theorem check_api_key_spec :
    ∀ (k : ApiKey) (now : Nat) (st : SQLiteState) (key ip : String),
      (k.is_expired now = true ↔ k.issued_at + k.expires_in ≤ now + 10) ∧
      (check_api_key st key ip now = true ↔
        ∃ k', st.keys.find? (fun a => a.key == key) = some k' ∧
          k'.ip = ip ∧ now + 10 < k'.issued_at + k'.expires_in) := by
  intro k now st key ip
  constructor
  · simp [ApiKey.is_expired]
  · unfold check_api_key
    cases hf : st.keys.find? (fun a => a.key == key) with
    | none => simp
    | some g =>
      constructor
      · intro h
        rw [Bool.and_eq_true] at h
        refine ⟨g, rfl, by simpa using h.1, ?_⟩
        have h2 : g.is_expired now = false := by simpa using h.2
        have h3 : ¬ (g.issued_at + g.expires_in ≤ now + 10) := by
          simpa [ApiKey.is_expired] using h2
        omega
      · rintro ⟨k', hk, hip, hlt⟩
        obtain rfl : g = k' := by simpa using hk
        rw [Bool.and_eq_true]
        refine ⟨by simp [hip], ?_⟩
        have h3 : ¬ (g.issued_at + g.expires_in ≤ now + 10) := by omega
        simp [ApiKey.is_expired, h3]

/-! ### nginx_utils.py -/

/-- An nginx configuration `Block`: a name, sub-blocks, and options in
insertion order (`Server` is a block named `"server"`, `Location loc` a
block named `"location " ++ loc`). -/
inductive Block where
  | mk (name : String) (sections : List Block) (options : List (String × String))

/-- The options part of `Block._repr_indent`: one
`indent + "    " + option + " " + value + ";\n"` line per option. -/
def reprOptions (indent : String) : List (String × String) → String
  | [] => ""
  | (k, v) :: rest =>
    indent ++ "    " ++ k ++ " " ++ v ++ ";\n" ++ reprOptions indent rest

mutual

/-- `Block._repr_indent`: the block header, the sub-blocks at four more
spaces of indentation, the options, and the closing brace. -/
def Block.reprIndent (indent : String) : Block → String
  | .mk name sections options =>
    indent ++ name ++ " \x7b\n" ++ reprSections ("    " ++ indent) sections
      ++ reprOptions indent options ++ indent ++ "\x7d\n"

/-- The `for block in self.sections` loop of `Block._repr_indent`. -/
def reprSections (indent : String) : List Block → String
  | [] => ""
  | b :: bs => Block.reprIndent indent b ++ reprSections indent bs

end

/-- The `server_name` value computed inside `Nginx.gen_config`: the
domain, plus ` www.<domain>` when the domain has exactly two labels
(`is_tld`), plus ` default_server` when the domain equals the instance's
`default` (`None` compares unequal to any domain). -/
def server_name (default : Option String) (domain : String) : String :=
  let is_tld := (splitDot domain).length == 2
  let sn := domain
  let sn := if is_tld then sn ++ " www." ++ domain else sn
  if default = some domain then sn ++ " default_server" else sn

/-- `Nginx.gen_config(domain, proxy_pass, logs_pre)` with the instance's
`default` passed explicitly: render a `Server` block holding a
`Location "/"` sub-block and the four options, via `str(http)`
(`Block._repr_indent` with empty indent). -/
def gen_config (default : Option String)
    (domain proxy_pass logs_pre : String) : String :=
  Block.reprIndent ""
    (.mk "server"
      [.mk "location /" []
        [("include", "proxy_params"), ("proxy_pass", proxy_pass)]]
      [("server_name", server_name default domain), ("listen", "80"),
       ("access_log", logs_pre ++ "access.log"),
       ("error_log", logs_pre ++ "error.log")])

/-- C8: `gen_config` is a pure function of `(default, domain, proxy_pass,
logs_pre)` and its output is exactly the rendered server block below, so
equal inputs always give equal output; a two-label domain's `server_name`
lists both the domain and `www.<domain>`; a domain equal to the configured
default gets the ` default_server` marker. -/
theorem gen_config_server_names :
    ∀ (dft : Option String) (d t lp : String),
      ((splitDot d).length = 2 →
        server_name dft d
          = if dft = some d then d ++ " www." ++ d ++ " default_server"
            else d ++ " www." ++ d) ∧
      (dft = some d → ∃ s, server_name dft d = s ++ " default_server") ∧
      gen_config dft d t lp
        = "server \x7b\n    location / \x7b\n        include proxy_params;\n        proxy_pass "
          ++ t ++ ";\n" ++ "    " ++ "\x7d\n" ++ "    server_name "
          ++ server_name dft d ++ ";\n" ++ "    listen 80;\n    access_log "
          ++ lp ++ "access.log" ++ ";\n" ++ "    error_log " ++ lp
          ++ "error.log" ++ ";\n" ++ "\x7d\n" := by
  intro dft d t lp
  refine ⟨?_, ?_, ?_⟩
  · intro h
    simp [server_name, h]
  · intro h
    by_cases hl : ((splitDot d).length == 2) = true
    · exact ⟨d ++ " www." ++ d, by simp [server_name, h, hl]⟩
    · exact ⟨d, by simp [server_name, h, hl]⟩
  · simp [gen_config, Block.reprIndent, reprSections, reprOptions,
      ← String.append_assoc]

/-- Witness for C8: `gen_config` on `example.com` with default
`example.com` yields a block serving `example.com`, `www.example.com`
and `default_server`. -/
theorem gen_config_server_names_witness :
    server_name (some "example.com") "example.com"
      = "example.com www.example.com default_server" ∧
    gen_config (some "example.com") "example.com" "http://127.0.0.1:8000"
        "/logs/web-"
      = "server \x7b\n    location / \x7b\n        include proxy_params;\n        proxy_pass http://127.0.0.1:8000;\n    \x7d\n    server_name example.com www.example.com default_server;\n    listen 80;\n    access_log /logs/web-access.log;\n    error_log /logs/web-error.log;\n\x7d\n" := by
  have h := gen_config_server_names (some "example.com") "example.com"
    "http://127.0.0.1:8000" "/logs/web-"
  have hs : server_name (some "example.com") "example.com"
      = "example.com www.example.com default_server" := by
    have h1 := h.1 (by decide)
    simpa using h1
  refine ⟨hs, ?_⟩
  rw [h.2.2, hs]
  simp [← String.append_assoc]

/-! ### dna.py — `_do_nginx_deploy` and `add_domain`

The filesystem of proxy configs is the set (list) of domains whose
`<domain>.conf` file exists under `self.confs`; the externally visible
actions (config writes, `nginx -s reload`, the `cert_else_false` lookup,
`time.sleep`) are recorded as events. Each pass of the `for _ in
range(12)` certificate loop either raises a certbot `LockError` somewhere
in its body (caught: sleep 5 seconds and continue) or reaches the
attach/provision call. That call never completes: `attach_cert` and
`run_bot` accept a `logger=` keyword only, yet `_do_nginx_deploy` passes
`logfile=self.internal_logger.file()` to both, so the call raises an
uncaught `TypeError` (unexpected keyword argument) that `except
LockError` does not handle — the in-loop `return` is unreachable, and a
non-lock pass aborts the whole operation with the config file already
written and the registry bind already committed. The outcome of pass `i`
is given by an oracle `att i`. -/

/-- Outcome of one pass of the certificate loop: `lock` — a `LockError`
is raised in the body; `existing` — `cert_else_false` finds a matching
certificate and `attach_cert(cert, domain, logfile=...)` is called;
`fresh` — no match and `run_bot([domain], logfile=...)` is called. The
latter two both die in a `TypeError` at keyword binding. -/
inductive Attempt where
  | lock
  | existing
  | fresh
deriving Repr, DecidableEq

/-- Externally visible actions of `_do_nginx_deploy`. No
certificate-install or certificate-issue event exists: the `TypeError`
fires before `certbot` runs. -/
inductive Event where
  | writeConf (domain : String)
  | reloadNginx
  | certSelect
  | sleep (seconds : Nat)
deriving Repr, DecidableEq

/-- How the certificate loop ends: `fellThrough` — all passes raised
`LockError`, the loop ran out and control reached the HTTP-only
fallback; `raised` — a pass reached attach/provision and the `TypeError`
propagated. -/
inductive CertLoopExit where
  | fellThrough
  | raised
deriving Repr, DecidableEq

/-- The `for _ in range(12)` certificate loop of `_do_nginx_deploy`,
started at pass `i` with `fuel` passes left. A `LockError` pass sleeps 5
seconds and continues; a non-lock pass runs `cert_else_false`
(`certSelect`) and then raises the `TypeError` out of the loop. -/
def certLoop (att : Nat → Attempt) : Nat → Nat → CertLoopExit × List Event
  | _, 0 => (.fellThrough, [])
  | i, fuel+1 =>
    match att i with
    | .lock =>
      let r := certLoop att (i+1) fuel
      (r.1, Event.sleep 5 :: r.2)
    | .existing => (.raised, [Event.certSelect])
    | .fresh => (.raised, [Event.certSelect])

/-- How `_do_nginx_deploy` ends: `noop` — the config file already
existed, idempotent early return; `insecure` — the certificate loop fell
through after 12 `LockError` passes and the function returned normally,
reporting the domain proxied over plain `http://`; `error` — the
uncaught `TypeError` propagated out of the call (config written and
nginx reloaded nonetheless). -/
inductive DeployExit where
  | noop
  | insecure
  | error
deriving Repr, DecidableEq

/-- Result of `_do_nginx_deploy`: the config files afterwards, the
events performed, and how the call ended. -/
structure NginxDeployResult where
  confs : List String
  events : List Event
  exit : DeployExit
deriving Repr, DecidableEq

/-- `DNA._do_nginx_deploy(service, domain)`: if the domain's config file
already exists, return immediately having done nothing; otherwise write
the config, reload nginx, and run the certificate loop (12 passes).
Twelve `LockError` passes end in the explicit HTTP-only fallback, a
normal return; a non-lock pass ends in the propagating `TypeError`. -/
def _do_nginx_deploy (confs : List String) (service domain : String)
    (att : Nat → Attempt) : NginxDeployResult :=
  if domain ∈ confs then ⟨confs, [], .noop⟩
  else
    let r := certLoop att 0 12
    ⟨confs ++ [domain],
     Event.writeConf domain :: Event.reloadNginx :: r.2,
     match r.1 with
     | .fellThrough => .insecure
     | .raised => .error⟩

/-- Result of `DNA.add_domain`: registry state, the nginx deploy result
(`none` when the deploy was skipped because the claim reported `False`),
and the boolean reported by `add_domain_to_service`. A `TypeError`
escaping `_do_nginx_deploy` is visible as `exit = .error` in the nginx
result; the recorded state still holds since the write and commit precede
the raise. -/
structure AddDomainResult where
  db : SQLiteState
  nginx : Option NginxDeployResult
  claimed : Bool
deriving Repr, DecidableEq

/-- `DNA.add_domain(service, domain)`: claim the domain in the registry;
on a `True` result run `_do_nginx_deploy` (the trailing
`propagate_services` reads docker state only and touches nothing modelled
here); a registry exception (`none`) propagates. -/
def add_domain (db : SQLiteState) (confs : List String)
    (service domain : String) (att : Nat → Attempt) :
    Option AddDomainResult :=
  match add_domain_to_service db domain service with
  | none => none
  | some (b, db1) =>
    if b then some ⟨db1, some (_do_nginx_deploy confs service domain att), b⟩
    else some ⟨db1, none, b⟩

/-- A run of the loop whose first `fuel` passes all raise `LockError`
sleeps 5 seconds per pass and falls off the loop end. -/
theorem certLoop_all_lock (att : Nat → Attempt) :
    ∀ (fuel i : Nat), (∀ j, j < fuel → att (i + j) = .lock) →
      certLoop att i fuel
        = (.fellThrough, List.replicate fuel (Event.sleep 5)) := by
  intro fuel
  induction fuel with
  | zero => intro i _; rfl
  | succ n ih =>
    intro i h
    have h0 : att i = .lock := by simpa using h 0 (Nat.succ_pos n)
    have hrec := ih (i + 1) (fun j hj => by
      have hx := h (j + 1) (Nat.succ_lt_succ hj)
      have he : i + (j + 1) = i + 1 + j := by omega
      rwa [he] at hx)
    unfold certLoop
    simp [h0, hrec, List.replicate_succ]

/-- A run whose passes `0..k-1` raise `LockError` and whose pass
`k < fuel` does not sleeps `5` seconds `k` times, selects a certificate
at pass `k`, and ends in the propagating `TypeError`. -/
theorem certLoop_first_raise (att : Nat → Attempt) :
    ∀ (fuel k i : Nat), k < fuel → (∀ j, j < k → att (i + j) = .lock) →
      att (i + k) ≠ .lock →
      certLoop att i fuel
        = (.raised,
           List.replicate k (Event.sleep 5) ++ [Event.certSelect]) := by
  intro fuel
  induction fuel with
  | zero => intro k i hk; exact absurd hk (Nat.not_lt_zero k)
  | succ n ih =>
    intro k i hk hlocks hok
    cases k with
    | zero =>
      unfold certLoop
      cases ha : att i with
      | lock => exact absurd (by simpa using ha) (by simpa using hok)
      | existing => simp [ha]
      | fresh => simp [ha]
    | succ m =>
      have h0 : att i = .lock := by simpa using hlocks 0 (Nat.succ_pos m)
      have hk' : m < n := by omega
      have hlocks' : ∀ j, j < m → att (i + 1 + j) = .lock := fun j hj => by
        have hx := hlocks (j + 1) (by omega)
        have he : i + (j + 1) = i + 1 + j := by omega
        rwa [he] at hx
      have he : i + (m + 1) = i + 1 + m := by omega
      have hok' : att (i + 1 + m) ≠ .lock := by rwa [he] at hok
      have hrec := ih m (i + 1) hk' hlocks' hok'
      unfold certLoop
      simp [h0, hrec, List.replicate_succ]

/-- The loop sleeps at most once per pass: at most `fuel` retries. -/
theorem certLoop_sleep_bound (att : Nat → Attempt) :
    ∀ (fuel i : Nat),
      ((certLoop att i fuel).2.countP (fun e => e == Event.sleep 5)) ≤ fuel := by
  intro fuel
  induction fuel with
  | zero => intro i; simp [certLoop]
  | succ n ih =>
    intro i
    unfold certLoop
    cases ha : att i with
    | lock =>
      simp only [ha, List.countP_cons]
      simpa using Nat.add_le_add_right (ih (i + 1)) 1
    | existing => simp [ha, List.countP_cons]
    | fresh => simp [ha, List.countP_cons]

/-- C7: each `LockError` pass of the certificate step triggers a retry
after a fixed 5-second sleep, with at most 12 passes (hence at most
twelve sleeps) in total; when all 12 passes hit the lock,
`_do_nginx_deploy` does not fail — it returns normally with the domain's
config written and nginx reloaded, explicitly reporting the unsecured
plain-HTTP outcome; when some pass `k < 12` gets past the lock, the loop
has slept exactly `k` times, 5 seconds each, before that pass runs the
certificate lookup (the pass then dies in the `logfile=` `TypeError`
rather than securing the domain). -/
theorem cert_lock_retry_spec :
    ∀ (att : Nat → Attempt) (confs : List String) (service domain : String),
      ((certLoop att 0 12).2.countP (fun e => e == Event.sleep 5) ≤ 12) ∧
      ((∀ i, i < 12 → att i = .lock) → domain ∉ confs →
        _do_nginx_deploy confs service domain att
          = ⟨confs ++ [domain],
             Event.writeConf domain :: Event.reloadNginx ::
               List.replicate 12 (Event.sleep 5), .insecure⟩) ∧
      (∀ k, k < 12 → (∀ i, i < k → att i = .lock) → att k ≠ .lock →
        certLoop att 0 12
          = (.raised,
             List.replicate k (Event.sleep 5) ++ [Event.certSelect])) := by
  intro att confs service domain
  refine ⟨certLoop_sleep_bound att 12 0, ?_, ?_⟩
  · intro hall hnot
    have hl := certLoop_all_lock att 12 0 (fun j hj => by
      simpa using hall j (by simpa using hj))
    unfold _do_nginx_deploy
    rw [if_neg hnot]
    simp [hl]
  · intro k hk hlocks hok
    have h := certLoop_first_raise att 12 k 0 hk
      (fun j hj => by simpa using hlocks j hj) (by simpa using hok)
    simpa using h

/-- Witness for C7: an oracle that always raises `LockError` leads to the
written-but-unsecured outcome with twelve 5-second sleeps. -/
theorem cert_lock_retry_spec_witness :
    _do_nginx_deploy [] "web" "example.com" (fun _ => Attempt.lock)
      = ⟨["example.com"],
         Event.writeConf "example.com" :: Event.reloadNginx ::
           List.replicate 12 (Event.sleep 5), .insecure⟩ :=
  (cert_lock_retry_spec (fun _ => Attempt.lock) [] "web"
    "example.com").2.1 (fun _ _ => rfl) (by decide)

/-- C5: `add_domain` run twice with identical arguments from a state
where the service exists, the domain is unclaimed and no config file for
it exists. The first run claims the domain and writes the config file
before the certificate loop can raise, so whatever the loop does the
config file for the domain exists afterwards; when every pass locks, the
first run moreover completes normally (the degraded-HTTP success). The
second run then reports success (`claimed = true`, the registry call
returns `True`) while performing no config write, no nginx reload, no
certificate selection or issuance and no sleep (its event list is empty —
the `noop` early return precedes the certificate loop, so not even the
`logfile=` `TypeError` can fire), and changes neither the registry nor
the config files. -/
theorem add_domain_idempotent :
    ∀ (db : SQLiteState) (confs : List String) (s d : String)
      (att1 att2 : Nat → Attempt) (sv : Service),
      get_service_by_name db s = some sv → ownerOf db d = none →
      d ∉ confs →
      ∃ r1 n1, add_domain db confs s d att1 = some r1 ∧
        r1.nginx = some n1 ∧ n1.confs = confs ++ [d] ∧
        ((∀ i, i < 12 → att1 i = .lock) → n1.exit = .insecure) ∧
        add_domain r1.db n1.confs s d att2
          = some ⟨r1.db, some ⟨n1.confs, [], .noop⟩, true⟩ := by
  intro db confs s d att1 att2 sv hs ho hc
  obtain ⟨db1, h1, hown, hsvc, _⟩ := add_unowned_found ho hs
  refine ⟨⟨db1, some (_do_nginx_deploy confs s d att1), true⟩,
    _do_nginx_deploy confs s d att1, ?_, rfl, ?_, ?_, ?_⟩
  · unfold add_domain
    rw [h1]
    simp
  · unfold _do_nginx_deploy
    rw [if_neg hc]
  · intro hall
    have hl := certLoop_all_lock att1 12 0 (fun j hj => by
      simpa using hall j (by simpa using hj))
    unfold _do_nginx_deploy
    rw [if_neg hc]
    simp [hl]
  · have hs1 : get_service_by_name db1 s = some sv := by
      unfold get_service_by_name at hs ⊢
      rw [hsvc]
      exact hs
    have h2 : add_domain_to_service db1 d s = some (true, db1) := by
      rw [add_owned s hown]
      simp [hs1]
    have hconfs : (_do_nginx_deploy confs s d att1).confs = confs ++ [d] := by
      unfold _do_nginx_deploy
      rw [if_neg hc]
    have hdeploy : _do_nginx_deploy (confs ++ [d]) s d att2
        = ⟨confs ++ [d], [], .noop⟩ := by
      unfold _do_nginx_deploy
      rw [if_pos (by simp)]
    show add_domain db1 (_do_nginx_deploy confs s d att1).confs s d att2
        = some ⟨db1,
            some ⟨(_do_nginx_deploy confs s d att1).confs, [], .noop⟩, true⟩
    rw [hconfs]
    unfold add_domain
    rw [h2]
    simp [hdeploy]

/-- Witness for C5: service `web` registered, domain `example.com`
unclaimed with no config file; the first `add_domain` (all passes locked,
so it completes normally with the HTTP fallback) writes the config, and
the second is the success-reporting no-op. -/
theorem add_domain_idempotent_witness :
    ∃ r1 n1, add_domain ⟨[⟨"web", "img", "8000"⟩], [], []⟩ [] "web"
        "example.com" (fun _ => Attempt.lock) = some r1 ∧
      r1.nginx = some n1 ∧ n1.confs = [] ++ ["example.com"] ∧
      ((∀ i, i < 12 → (fun _ => Attempt.lock) i = Attempt.lock) →
        n1.exit = DeployExit.insecure) ∧
      add_domain r1.db n1.confs "web" "example.com" (fun _ => Attempt.fresh)
        = some ⟨r1.db, some ⟨n1.confs, [], .noop⟩, true⟩ :=
  add_domain_idempotent ⟨[⟨"web", "img", "8000"⟩], [], []⟩ [] "web"
    "example.com" (fun _ => Attempt.lock) (fun _ => Attempt.fresh)
    ⟨"web", "img", "8000"⟩ (by decide) (by decide) (by decide)

end Dna
